import Mathlib

/-!
# ClusterIngress reconciler: status-update protocol

A shallow embedding of `pkg/controller/clusteringress/clusteringress_controller.go`
(`ReconcileClusterIngress.Reconcile` and `ReconcileClusterIngress.updateStatus`).

The Go code is sequential and talks to three collaborators: the object-store
client (`Get`, `Status().Update`), the base reconciler (`ReconcileIngress`, the
"translator") and two library predicates (`errors.IsNotFound`,
`equality.Semantic.DeepEqual`).  The collaborators are parameters of the
embedding.  Each call threads an explicit world `W`; a collaborator may change
the world arbitrarily during a call, which is how writes by other actors that
land between two calls of one `Reconcile` are represented.

Go's `error` is `Option E` (`none` is `nil`), a returned pointer that may be
`nil` is an `Option`, and objects are values, so `DeepCopy` is the identity and
`reflect.DeepEqual` is structural equality.
-/

namespace ClusterIngressController

/-- The identity of an object, `types.NamespacedName`. -/
structure NamespacedName where
  Namespace : String
  Name : String
deriving DecidableEq

/-- The reconcile key, `reconcile.Request`. -/
structure Request where
  NamespacedName : NamespacedName
deriving DecidableEq

/-- The outcome record `reconcile.Result`; `Result{}` is the default value. -/
structure Result where
  Requeue : Bool := false
  RequeueAfter : Nat := 0
deriving DecidableEq

/-- The part of `metav1.ObjectMeta` the controller and the store look at.  The
resource version is an opaque string in the API; it is a counter here. -/
structure ObjectMeta where
  Name : String
  Namespace : String
  ResourceVersion : Nat
  Generation : Nat
deriving DecidableEq

/-- The intent object `networkingv1alpha1.ClusterIngress`: embedded metadata, a
`Spec` and a `Status`, both opaque to the controller. -/
structure ClusterIngress (IngressSpec IngressStatus : Type) extends ObjectMeta where
  Spec : IngressSpec
  Status : IngressStatus
deriving DecidableEq

section Embedding

variable {W E IngressSpec IngressStatus : Type}

/-- The generated `DeepCopy`: an independent copy, which for values is the value. -/
def ClusterIngress.DeepCopy (ci : ClusterIngress IngressSpec IngressStatus) :
    ClusterIngress IngressSpec IngressStatus := ci

/-- The Go `reflect.DeepEqual` on two values of one type: structural equality. -/
def reflectDeepEqual {α : Type} [DecidableEq α] (a b : α) : Bool := decide (a = b)

/-- The object-store client `client.Client` as the controller uses it.
`Get` fills the object it is given or fails; `StatusUpdate` is
`Status().Update`, which may rewrite the object it is given (the server's
answer) and may fail. -/
structure Client (W E IngressSpec IngressStatus : Type) where
  Get : NamespacedName → W → Except E (ClusterIngress IngressSpec IngressStatus) × W
  StatusUpdate : ClusterIngress IngressSpec IngressStatus → W →
    (ClusterIngress IngressSpec IngressStatus × Option E) × W

/-- The translator `common.BaseIngressReconciler`: it mutates the object it is
given in place (any field), acts on the world and returns an error or `nil`. -/
structure BaseIngressReconciler (W E IngressSpec IngressStatus : Type) where
  ReconcileIngress : ClusterIngress IngressSpec IngressStatus → W →
    (ClusterIngress IngressSpec IngressStatus × Option E) × W

/-- The receiver `ReconcileClusterIngress` with its `base` and `client`
fields, together with the two library predicates the method bodies call:
`errors.IsNotFound` and `equality.Semantic.DeepEqual` (on statuses). -/
structure ReconcileClusterIngress (W E IngressSpec IngressStatus : Type) where
  base : BaseIngressReconciler W E IngressSpec IngressStatus
  client : Client W E IngressSpec IngressStatus
  IsNotFound : E → Bool
  SemanticDeepEqual : IngressStatus → IngressStatus → Bool

/-- The method `updateStatus` (source lines 122-138): re-fetch by the desired
object's name and namespace, return the fetched object when its status
deep-equals the desired one, otherwise copy it, overwrite the copy's status
and submit the copy to `Status().Update`. -/
def updateStatus [DecidableEq IngressStatus]
    (r : ReconcileClusterIngress W E IngressSpec IngressStatus)
    (desired : ClusterIngress IngressSpec IngressStatus) (w : W) :
    (Option (ClusterIngress IngressSpec IngressStatus) × Option E) × W :=
  match r.client.Get { Name := desired.Name, Namespace := desired.Namespace } w with
  | (Except.error err, w1) => ((none, some err), w1)
  | (Except.ok ci, w1) =>
    if reflectDeepEqual ci.Status desired.Status then
      ((some ci, none), w1)
    else
      let existing := ci.DeepCopy
      let existing := { existing with Status := desired.Status }
      match r.client.StatusUpdate existing w1 with
      | ((existing, err), w2) => ((some existing, err), w2)

/-- The method `Reconcile` (source lines 86-118): fetch by the request's key,
copy, run the translator on the copy, compare the fetched Status with the
copy's Status semantically and, when they differ, run `updateStatus` on the
copy.  The logger calls act on nothing the method returns or writes and are
left out. -/
def Reconcile [DecidableEq IngressStatus]
    (r : ReconcileClusterIngress W E IngressSpec IngressStatus)
    (request : Request) (w : W) : (Result × Option E) × W :=
  match r.client.Get request.NamespacedName w with
  | (Except.error err, w1) =>
    if r.IsNotFound err then
      (({}, none), w1)
    else
      (({}, some err), w1)
  | (Except.ok original, w1) =>
    let ci := original.DeepCopy
    match r.base.ReconcileIngress ci w1 with
    -- the translator's error is stored in `err` and not read again
    | ((ci, _err), w2) =>
      if r.SemanticDeepEqual original.Status ci.Status then
        (({}, none), w2)
      else
        match updateStatus r ci w2 with
        | ((_, some err), w3) => (({}, some err), w3)
        | ((_, none), w3) => (({}, none), w3)

/-! ## Recording the collaborator calls -/

/-- One call made to a collaborator, with what the collaborator answered. -/
inductive Event (E IngressSpec IngressStatus : Type) where
  | Get (key : NamespacedName) (res : Except E (ClusterIngress IngressSpec IngressStatus))
  | StatusUpdate (obj out : ClusterIngress IngressSpec IngressStatus) (err : Option E)
  | ReconcileIngress (ci out : ClusterIngress IngressSpec IngressStatus) (err : Option E)

/-- Whether the event is a call of `Status().Update`. -/
def Event.isStatusUpdate : Event E IngressSpec IngressStatus → Bool
  | Event.StatusUpdate _ _ _ => true
  | _ => false

/-- Whether the event is a call of `Get`. -/
def Event.isGet : Event E IngressSpec IngressStatus → Bool
  | Event.Get _ _ => true
  | _ => false

/-- The number of `Status().Update` calls in a log. -/
def statusWrites (l : List (Event E IngressSpec IngressStatus)) : Nat :=
  l.countP Event.isStatusUpdate

/-- The same receiver with every collaborator call appended to a log kept next
to the world.  The collaborators behave as before; the method bodies are
unchanged (they are run on the wrapped receiver). -/
def traced (r : ReconcileClusterIngress W E IngressSpec IngressStatus) :
    ReconcileClusterIngress (W × List (Event E IngressSpec IngressStatus)) E
      IngressSpec IngressStatus where
  base :=
    { ReconcileIngress := fun ci wl =>
        ((r.base.ReconcileIngress ci wl.1).1,
          ((r.base.ReconcileIngress ci wl.1).2,
            wl.2 ++ [Event.ReconcileIngress ci (r.base.ReconcileIngress ci wl.1).1.1
              (r.base.ReconcileIngress ci wl.1).1.2])) }
  client :=
    { Get := fun key wl =>
        ((r.client.Get key wl.1).1,
          ((r.client.Get key wl.1).2, wl.2 ++ [Event.Get key (r.client.Get key wl.1).1]))
      StatusUpdate := fun obj wl =>
        ((r.client.StatusUpdate obj wl.1).1,
          ((r.client.StatusUpdate obj wl.1).2,
            wl.2 ++ [Event.StatusUpdate obj (r.client.StatusUpdate obj wl.1).1.1
              (r.client.StatusUpdate obj wl.1).1.2])) }
  IsNotFound := r.IsNotFound
  SemanticDeepEqual := r.SemanticDeepEqual

/-- Whether two translator answers agree on what `Reconcile` reads of them:
the status, the name and the namespace of the returned object, and the world.
The rest of the returned object (its Spec, its other metadata) and the returned
error are left free. -/
def agreeOnStatusAndKey
    (a b : (ClusterIngress IngressSpec IngressStatus × Option E) × W) : Prop :=
  a.1.1.Status = b.1.1.Status ∧ a.1.1.Name = b.1.1.Name ∧
    a.1.1.Namespace = b.1.1.Namespace ∧ a.2 = b.2

end Embedding

/-! ## An object store -/

/-- The failures of the store and of the translator. -/
inductive ApiError where
  | NotFound
  | Conflict
  | Unavailable
  | Internal
deriving DecidableEq

/-- What the store keeps of one object under its key. -/
structure Stored (IngressSpec IngressStatus : Type) where
  ResourceVersion : Nat
  Generation : Nat
  Spec : IngressSpec
  Status : IngressStatus
deriving DecidableEq

/-- Modelled from the spec: the object store behind `client.Client` (section 6,
"Object Store contract consumed"; the store itself is an external service).
Objects are kept by (namespace, name) with a resource version.  `faults` is
the schedule of injected failures: each store call takes the head, and a call
whose head is `some e` fails with `e` and changes nothing. -/
structure Store (IngressSpec IngressStatus : Type) where
  objects : NamespacedName → Option (Stored IngressSpec IngressStatus)
  faults : List (Option ApiError)

section StoreModel

variable {IngressSpec IngressStatus : Type}

/-- The object a key and its stored record stand for. -/
def Stored.toObject (key : NamespacedName) (o : Stored IngressSpec IngressStatus) :
    ClusterIngress IngressSpec IngressStatus :=
  { Name := key.Name, Namespace := key.Namespace, ResourceVersion := o.ResourceVersion,
    Generation := o.Generation, Spec := o.Spec, Status := o.Status }

/-- The key an object is stored under. -/
def ClusterIngress.key (ci : ClusterIngress IngressSpec IngressStatus) : NamespacedName :=
  { Namespace := ci.Namespace, Name := ci.Name }

/-- Take the next scheduled failure, if any. -/
def Store.nextFault (s : Store IngressSpec IngressStatus) :
    Option ApiError × Store IngressSpec IngressStatus :=
  match s.faults with
  | [] => (none, s)
  | f :: rest => (f, { s with faults := rest })

/-- Replace the record under one key. -/
def Store.put (s : Store IngressSpec IngressStatus) (key : NamespacedName)
    (o : Stored IngressSpec IngressStatus) : Store IngressSpec IngressStatus :=
  { s with objects := fun k => if k = key then some o else s.objects k }

/-- Modelled from the spec: `Get(namespace, name) -> Object | NotFoundError |
Error`.  The last persisted object under the key, `NotFound` when there is
none, or the scheduled failure. -/
def Store.Get (key : NamespacedName) (s : Store IngressSpec IngressStatus) :
    Except ApiError (ClusterIngress IngressSpec IngressStatus) ×
      Store IngressSpec IngressStatus :=
  match s.nextFault with
  | (some e, s1) => (Except.error e, s1)
  | (none, s1) =>
    match s1.objects key with
    | none => (Except.error ApiError.NotFound, s1)
    | some o => (Except.ok (o.toObject key), s1)

/-- Modelled from the spec: `UpdateStatus(object) -> Object | ConflictError |
Error` with status-subresource semantics: only the status section of the
submitted object is persisted, the persisted Spec is kept, and the write is
refused with `Conflict` when the submitted resource version is not the
persisted one.  A successful write advances the resource version and answers
with the persisted object. -/
def Store.StatusUpdate (obj : ClusterIngress IngressSpec IngressStatus)
    (s : Store IngressSpec IngressStatus) :
    (ClusterIngress IngressSpec IngressStatus × Option ApiError) ×
      Store IngressSpec IngressStatus :=
  match s.nextFault with
  | (some e, s1) => ((obj, some e), s1)
  | (none, s1) =>
    match s1.objects obj.key with
    | none => ((obj, some ApiError.NotFound), s1)
    | some cur =>
      if cur.ResourceVersion = obj.ResourceVersion then
        ((({ cur with Status := obj.Status, ResourceVersion := cur.ResourceVersion + 1 } :
            Stored IngressSpec IngressStatus).toObject obj.key, none),
          s1.put obj.key
            { cur with Status := obj.Status, ResourceVersion := cur.ResourceVersion + 1 })
      else
        ((obj, some ApiError.Conflict), s1)

/-- The persisted Status under a key. -/
def Store.persistedStatus (s : Store IngressSpec IngressStatus) (key : NamespacedName) :
    Option IngressStatus :=
  (s.objects key).map Stored.Status

/-- The persisted Spec under a key. -/
def Store.persistedSpec (s : Store IngressSpec IngressStatus) (key : NamespacedName) :
    Option IngressSpec :=
  (s.objects key).map Stored.Spec

/-- The receiver wired to the store, with a given translator and a given
semantic equality on statuses. -/
def storeReconciler
    (translate : ClusterIngress IngressSpec IngressStatus → Store IngressSpec IngressStatus →
      (ClusterIngress IngressSpec IngressStatus × Option ApiError) ×
        Store IngressSpec IngressStatus)
    (semantic : IngressStatus → IngressStatus → Bool) :
    ReconcileClusterIngress (Store IngressSpec IngressStatus) ApiError
      IngressSpec IngressStatus where
  base := { ReconcileIngress := translate }
  client := { Get := Store.Get, StatusUpdate := Store.StatusUpdate }
  IsNotFound := fun e => decide (e = ApiError.NotFound)
  SemanticDeepEqual := semantic

/-- A translator that is a function of the object it is given and leaves the
store alone. -/
def pureTranslator
    (t : ClusterIngress IngressSpec IngressStatus →
      ClusterIngress IngressSpec IngressStatus × Option ApiError) :
    ClusterIngress IngressSpec IngressStatus → Store IngressSpec IngressStatus →
      (ClusterIngress IngressSpec IngressStatus × Option ApiError) ×
        Store IngressSpec IngressStatus :=
  fun ci s => (t ci, s)

end StoreModel

/-! ## Concrete objects, translators and stores

Specs and statuses are numbers here.  The object `default/foo` is persisted
with Spec `7`, Status `0` and resource version `1`. -/

section Examples

/-- The key `default/foo`. -/
def fooKey : NamespacedName := { Namespace := "default", Name := "foo" }

/-- The reconcile request for `default/foo`. -/
def fooRequest : Request := { NamespacedName := fooKey }

/-- The persisted record of `default/foo`. -/
def fooStored : Stored Nat Nat :=
  { ResourceVersion := 1, Generation := 1, Spec := 7, Status := 0 }

/-- The object `default/foo` as `Get` returns it. -/
def fooObject : ClusterIngress Nat Nat := fooStored.toObject fooKey

/-- A store that holds `default/foo` only and has a given failure schedule. -/
def fooStore (faults : List (Option ApiError)) : Store Nat Nat :=
  { objects := fun k => if k = fooKey then some fooStored else none, faults := faults }

/-- A store that holds nothing. -/
def emptyStore : Store Nat Nat := { objects := fun _ => none, faults := [] }

/-- Semantic equality of the numeric statuses: equality. -/
def sameStatus (a b : Nat) : Bool := decide (a = b)

/-- A translator that sets the Status to `1` and succeeds. -/
def markReady (ci : ClusterIngress Nat Nat) : ClusterIngress Nat Nat × Option ApiError :=
  ({ ci with Status := 1 }, none)

/-- A translator that leaves the object as it is and fails. -/
def failUnchanged (ci : ClusterIngress Nat Nat) : ClusterIngress Nat Nat × Option ApiError :=
  (ci, some ApiError.Internal)

/-- A translator that records a failure condition (Status `2`), overwrites the
Spec of its copy and fails. -/
def failMarked (ci : ClusterIngress Nat Nat) : ClusterIngress Nat Nat × Option ApiError :=
  ({ ci with Status := 2, Spec := 99 }, some ApiError.Internal)

/-- A translator whose Status is one more than the Status of the object it is
given: a function of its argument alone, with no stable Status. -/
def countRuns (ci : ClusterIngress Nat Nat) : ClusterIngress Nat Nat × Option ApiError :=
  ({ ci with Status := ci.Status + 1 }, none)

/-- A translator run during which another writer persists Status `5` (a write
that advances the resource version), and which computes Status `1` from the
object it was given. -/
def markReadyWhileOverwritten (ci : ClusterIngress Nat Nat) (s : Store Nat Nat) :
    (ClusterIngress Nat Nat × Option ApiError) × Store Nat Nat :=
  (({ ci with Status := 1 }, none),
    s.put fooKey { fooStored with Status := 5, ResourceVersion := 2 })

/-- The receiver over the store with the translator `markReady`. -/
def readyReconciler : ReconcileClusterIngress (Store Nat Nat) ApiError Nat Nat :=
  storeReconciler (pureTranslator markReady) sameStatus

/-- The receiver over the store with the translator `failUnchanged`. -/
def failUnchangedReconciler : ReconcileClusterIngress (Store Nat Nat) ApiError Nat Nat :=
  storeReconciler (pureTranslator failUnchanged) sameStatus

/-- The receiver over the store with the translator `failMarked`. -/
def failMarkedReconciler : ReconcileClusterIngress (Store Nat Nat) ApiError Nat Nat :=
  storeReconciler (pureTranslator failMarked) sameStatus

/-- The receiver over the store with the translator `countRuns`. -/
def countingReconciler : ReconcileClusterIngress (Store Nat Nat) ApiError Nat Nat :=
  storeReconciler (pureTranslator countRuns) sameStatus

/-- The receiver over the store with the translator `markReadyWhileOverwritten`. -/
def overwrittenReconciler : ReconcileClusterIngress (Store Nat Nat) ApiError Nat Nat :=
  storeReconciler markReadyWhileOverwritten sameStatus

/-- A translator that records the failure condition (Status `2`) and touches
nothing else. -/
def markFailed (ci : ClusterIngress Nat Nat) : ClusterIngress Nat Nat × Option ApiError :=
  ({ ci with Status := 2 }, none)

end Examples

/-! ## The wrapped collaborators -/

section Wrapped

variable {W E IngressSpec IngressStatus : Type}

theorem traced_Get (r : ReconcileClusterIngress W E IngressSpec IngressStatus)
    (key : NamespacedName) (w w1 : W) (l : List (Event E IngressSpec IngressStatus))
    (res : Except E (ClusterIngress IngressSpec IngressStatus))
    (hget : r.client.Get key w = (res, w1)) :
    (traced r).client.Get key (w, l) = (res, (w1, l ++ [Event.Get key res])) := by
  simp [traced, hget]

theorem traced_ReconcileIngress (r : ReconcileClusterIngress W E IngressSpec IngressStatus)
    (ci out : ClusterIngress IngressSpec IngressStatus) (terr : Option E) (w w1 : W)
    (l : List (Event E IngressSpec IngressStatus))
    (htr : r.base.ReconcileIngress ci w = ((out, terr), w1)) :
    (traced r).base.ReconcileIngress ci (w, l) =
      ((out, terr), (w1, l ++ [Event.ReconcileIngress ci out terr])) := by
  simp [traced, htr]

theorem traced_StatusUpdate (r : ReconcileClusterIngress W E IngressSpec IngressStatus)
    (obj : ClusterIngress IngressSpec IngressStatus) (w : W)
    (l : List (Event E IngressSpec IngressStatus)) :
    (traced r).client.StatusUpdate obj (w, l) =
      ((r.client.StatusUpdate obj w).1,
        ((r.client.StatusUpdate obj w).2,
          l ++ [Event.StatusUpdate obj (r.client.StatusUpdate obj w).1.1
            (r.client.StatusUpdate obj w).1.2])) := rfl

theorem statusWrites_append (l l' : List (Event E IngressSpec IngressStatus)) :
    statusWrites (l ++ l') = statusWrites l + statusWrites l' := by
  simp [statusWrites]

end Wrapped

/-! ## The paths through `updateStatus` and `Reconcile` -/

section Paths

variable {W E IngressSpec IngressStatus : Type} [DecidableEq IngressStatus]

theorem updateStatus_refetch_failed
    (r : ReconcileClusterIngress W E IngressSpec IngressStatus)
    (desired : ClusterIngress IngressSpec IngressStatus) (w w1 : W) (e : E)
    (hget : r.client.Get desired.key w = (Except.error e, w1)) :
    updateStatus r desired w = ((none, some e), w1) := by
  simp only [ClusterIngress.key] at hget
  simp [updateStatus, hget]

theorem updateStatus_same_status
    (r : ReconcileClusterIngress W E IngressSpec IngressStatus)
    (desired fresh : ClusterIngress IngressSpec IngressStatus) (w w1 : W)
    (hget : r.client.Get desired.key w = (Except.ok fresh, w1))
    (heq : reflectDeepEqual fresh.Status desired.Status = true) :
    updateStatus r desired w = ((some fresh, none), w1) := by
  simp only [ClusterIngress.key] at hget
  simp [updateStatus, hget, heq]

theorem updateStatus_write
    (r : ReconcileClusterIngress W E IngressSpec IngressStatus)
    (desired fresh : ClusterIngress IngressSpec IngressStatus) (w w1 : W)
    (hget : r.client.Get desired.key w = (Except.ok fresh, w1))
    (hne : reflectDeepEqual fresh.Status desired.Status = false) :
    updateStatus r desired w =
      ((some (r.client.StatusUpdate { fresh with Status := desired.Status } w1).1.1,
        (r.client.StatusUpdate { fresh with Status := desired.Status } w1).1.2),
        (r.client.StatusUpdate { fresh with Status := desired.Status } w1).2) := by
  simp only [ClusterIngress.key] at hget
  simp [updateStatus, hget, hne, ClusterIngress.DeepCopy]

theorem Reconcile_fetch_failed
    (r : ReconcileClusterIngress W E IngressSpec IngressStatus)
    (request : Request) (w w1 : W) (e : E)
    (hget : r.client.Get request.NamespacedName w = (Except.error e, w1)) :
    Reconcile r request w = (({}, if r.IsNotFound e then none else some e), w1) := by
  by_cases hnf : r.IsNotFound e = true <;> simp [Reconcile, hget, hnf]

theorem Reconcile_status_unchanged
    (r : ReconcileClusterIngress W E IngressSpec IngressStatus)
    (request : Request) (w w1 w2 : W)
    (original ci : ClusterIngress IngressSpec IngressStatus) (terr : Option E)
    (hget : r.client.Get request.NamespacedName w = (Except.ok original, w1))
    (htr : r.base.ReconcileIngress original.DeepCopy w1 = ((ci, terr), w2))
    (heq : r.SemanticDeepEqual original.Status ci.Status = true) :
    Reconcile r request w = (({}, none), w2) := by
  simp [Reconcile, hget, htr, heq]

theorem Reconcile_status_changed
    (r : ReconcileClusterIngress W E IngressSpec IngressStatus)
    (request : Request) (w w1 w2 : W)
    (original ci : ClusterIngress IngressSpec IngressStatus) (terr : Option E)
    (hget : r.client.Get request.NamespacedName w = (Except.ok original, w1))
    (htr : r.base.ReconcileIngress original.DeepCopy w1 = ((ci, terr), w2))
    (hne : r.SemanticDeepEqual original.Status ci.Status = false) :
    Reconcile r request w =
      (({}, (updateStatus r ci w2).1.2), (updateStatus r ci w2).2) := by
  simp only [Reconcile, hget, htr, hne]
  rcases hu : updateStatus r ci w2 with ⟨⟨o, _ | err⟩, w3⟩ <;> simp

/-- The three shapes of a run of `updateStatus` on the wrapped receiver. -/
theorem updateStatus_traced_cases
    (r : ReconcileClusterIngress W E IngressSpec IngressStatus)
    (desired : ClusterIngress IngressSpec IngressStatus) (w : W)
    (l : List (Event E IngressSpec IngressStatus)) :
    (∃ e w1, r.client.Get desired.key w = (Except.error e, w1) ∧
      updateStatus r desired w = ((none, some e), w1) ∧
      updateStatus (traced r) desired (w, l) =
        ((none, some e), (w1, l ++ [Event.Get desired.key (Except.error e)]))) ∨
    (∃ fresh w1, r.client.Get desired.key w = (Except.ok fresh, w1) ∧
      fresh.Status = desired.Status ∧
      updateStatus r desired w = ((some fresh, none), w1) ∧
      updateStatus (traced r) desired (w, l) =
        ((some fresh, none), (w1, l ++ [Event.Get desired.key (Except.ok fresh)]))) ∨
    (∃ fresh w1 out err w2, r.client.Get desired.key w = (Except.ok fresh, w1) ∧
      fresh.Status ≠ desired.Status ∧
      r.client.StatusUpdate { fresh with Status := desired.Status } w1 = ((out, err), w2) ∧
      updateStatus r desired w = ((some out, err), w2) ∧
      updateStatus (traced r) desired (w, l) =
        ((some out, err), (w2, l ++ [Event.Get desired.key (Except.ok fresh),
          Event.StatusUpdate { fresh with Status := desired.Status } out err]))) := by
  rcases hget : r.client.Get desired.key w with ⟨e | fresh, w1⟩
  · left
    exact ⟨e, w1, rfl, updateStatus_refetch_failed r desired w w1 e hget,
      updateStatus_refetch_failed (traced r) desired _ _ e (traced_Get r _ w w1 l _ hget)⟩
  · right
    by_cases hs : fresh.Status = desired.Status
    · left
      have heq : reflectDeepEqual fresh.Status desired.Status = true := by
        simp [reflectDeepEqual, hs]
      exact ⟨fresh, w1, rfl, hs, updateStatus_same_status r desired fresh w w1 hget heq,
        updateStatus_same_status (traced r) desired fresh _ _
          (traced_Get r _ w w1 l _ hget) heq⟩
    · right
      have hne : reflectDeepEqual fresh.Status desired.Status = false := by
        simp [reflectDeepEqual, hs]
      rcases hupd : r.client.StatusUpdate { fresh with Status := desired.Status } w1 with
        ⟨⟨out, err⟩, w2⟩
      refine ⟨fresh, w1, out, err, w2, rfl, hs, hupd, ?_, ?_⟩
      · rw [updateStatus_write r desired fresh w w1 hget hne, hupd]
      · rw [updateStatus_write (traced r) desired fresh _ _ (traced_Get r _ w w1 l _ hget) hne,
          traced_StatusUpdate, hupd]
        simp

end Paths

section Runs

variable {W E IngressSpec IngressStatus : Type} [DecidableEq IngressStatus]

/-- A run of `Reconcile` on the wrapped receiver whose translator changed the
Status: the first two calls, then `updateStatus` on the translator's object. -/
theorem Reconcile_traced_status_changed
    (r : ReconcileClusterIngress W E IngressSpec IngressStatus)
    (request : Request) (w w1 w2 : W) (l : List (Event E IngressSpec IngressStatus))
    (original ci : ClusterIngress IngressSpec IngressStatus) (terr : Option E)
    (hget : r.client.Get request.NamespacedName w = (Except.ok original, w1))
    (htr : r.base.ReconcileIngress original.DeepCopy w1 = ((ci, terr), w2))
    (hne : r.SemanticDeepEqual original.Status ci.Status = false) :
    Reconcile (traced r) request (w, l) =
      (({}, (updateStatus (traced r) ci (w2, l ++
          [Event.Get request.NamespacedName (Except.ok original),
            Event.ReconcileIngress original.DeepCopy ci terr])).1.2),
        (updateStatus (traced r) ci (w2, l ++
          [Event.Get request.NamespacedName (Except.ok original),
            Event.ReconcileIngress original.DeepCopy ci terr])).2) := by
  have h := Reconcile_status_changed (traced r) request (w, l)
    (w1, l ++ [Event.Get request.NamespacedName (Except.ok original)])
    (w2, l ++ [Event.Get request.NamespacedName (Except.ok original)] ++
      [Event.ReconcileIngress original.DeepCopy ci terr]) original ci terr
    (traced_Get r _ w w1 l _ hget) (traced_ReconcileIngress r _ _ _ w1 w2 _ htr) hne
  simpa using h

/-- A run of `Reconcile` on the wrapped receiver whose translator left the
Status semantically equal: two calls and nothing else. -/
theorem Reconcile_traced_status_unchanged
    (r : ReconcileClusterIngress W E IngressSpec IngressStatus)
    (request : Request) (w w1 w2 : W) (l : List (Event E IngressSpec IngressStatus))
    (original ci : ClusterIngress IngressSpec IngressStatus) (terr : Option E)
    (hget : r.client.Get request.NamespacedName w = (Except.ok original, w1))
    (htr : r.base.ReconcileIngress original.DeepCopy w1 = ((ci, terr), w2))
    (heq : r.SemanticDeepEqual original.Status ci.Status = true) :
    Reconcile (traced r) request (w, l) =
      (({}, none), (w2, l ++ [Event.Get request.NamespacedName (Except.ok original),
        Event.ReconcileIngress original.DeepCopy ci terr])) := by
  have h := Reconcile_status_unchanged (traced r) request (w, l)
    (w1, l ++ [Event.Get request.NamespacedName (Except.ok original)])
    (w2, l ++ [Event.Get request.NamespacedName (Except.ok original)] ++
      [Event.ReconcileIngress original.DeepCopy ci terr]) original ci terr
    (traced_Get r _ w w1 l _ hget) (traced_ReconcileIngress r _ _ _ w1 w2 _ htr) heq
  simpa using h

/-- A run of `Reconcile` on the wrapped receiver whose first `Get` failed. -/
theorem Reconcile_traced_fetch_failed
    (r : ReconcileClusterIngress W E IngressSpec IngressStatus)
    (request : Request) (w w1 : W) (l : List (Event E IngressSpec IngressStatus)) (e : E)
    (hget : r.client.Get request.NamespacedName w = (Except.error e, w1)) :
    Reconcile (traced r) request (w, l) =
      (({}, if r.IsNotFound e then none else some e),
        (w1, l ++ [Event.Get request.NamespacedName (Except.error e)])) :=
  Reconcile_fetch_failed (traced r) request (w, l) _ e (traced_Get r _ w w1 l _ hget)

/-- The log is an observer: the wrapped receiver yields the result and the
world of the plain one. -/
theorem Reconcile_traced_erase
    (r : ReconcileClusterIngress W E IngressSpec IngressStatus)
    (request : Request) (w : W) (l : List (Event E IngressSpec IngressStatus)) :
    (Reconcile (traced r) request (w, l)).1 = (Reconcile r request w).1 ∧
    (Reconcile (traced r) request (w, l)).2.1 = (Reconcile r request w).2 := by
  rcases hget : r.client.Get request.NamespacedName w with ⟨e | original, w1⟩
  · rw [Reconcile_traced_fetch_failed r request w w1 l e hget,
      Reconcile_fetch_failed r request w w1 e hget]
    exact ⟨rfl, rfl⟩
  · rcases htr : r.base.ReconcileIngress original.DeepCopy w1 with ⟨⟨ci, terr⟩, w2⟩
    by_cases heq : r.SemanticDeepEqual original.Status ci.Status = true
    · rw [Reconcile_traced_status_unchanged r request w w1 w2 l original ci terr hget htr heq,
        Reconcile_status_unchanged r request w w1 w2 original ci terr hget htr heq]
      exact ⟨rfl, rfl⟩
    · have hne : r.SemanticDeepEqual original.Status ci.Status = false := by
        simpa using heq
      rw [Reconcile_traced_status_changed r request w w1 w2 l original ci terr hget htr hne,
        Reconcile_status_changed r request w w1 w2 original ci terr hget htr hne]
      rcases updateStatus_traced_cases r ci w2
          (l ++ [Event.Get request.NamespacedName (Except.ok original),
            Event.ReconcileIngress original.DeepCopy ci terr]) with
        ⟨e', w3, _, hu, hut⟩ | ⟨fresh, w3, _, _, hu, hut⟩ |
        ⟨fresh, w3, out, err, w4, _, _, _, hu, hut⟩ <;>
      · rw [hu, hut]
        exact ⟨rfl, rfl⟩

end Runs

/-! ## What the store model guarantees -/

section StoreFacts

variable {IngressSpec IngressStatus : Type}

theorem Store.nextFault_objects (s : Store IngressSpec IngressStatus) :
    s.nextFault.2.objects = s.objects := by
  unfold Store.nextFault
  cases s.faults <;> rfl

theorem Store.Get_objects (key : NamespacedName) (s : Store IngressSpec IngressStatus) :
    (Store.Get key s).2.objects = s.objects := by
  have h := Store.nextFault_objects s
  unfold Store.Get
  rcases hf : s.nextFault with ⟨_ | e, s1⟩ <;> rw [hf] at h <;> simp only at h ⊢
  · cases s1.objects key <;> exact h
  · exact h

theorem Store.Get_ok (key : NamespacedName) (s s' : Store IngressSpec IngressStatus)
    (o : ClusterIngress IngressSpec IngressStatus)
    (hget : Store.Get key s = (Except.ok o, s')) :
    o.key = key ∧ s'.persistedStatus key = some o.Status := by
  unfold Store.Get at hget
  rcases hf : s.nextFault with ⟨_ | e, s1⟩ <;> rw [hf] at hget <;> simp only at hget
  · rcases ho : s1.objects key with _ | st <;> rw [ho] at hget <;> simp only at hget
    · simp at hget
    · simp only [Prod.mk.injEq, Except.ok.injEq] at hget
      obtain ⟨h1, h2⟩ := hget
      subst h1 h2
      simp [Stored.toObject, ClusterIngress.key, Store.persistedStatus, ho]
  · simp at hget

theorem Store.StatusUpdate_persistedSpec (obj : ClusterIngress IngressSpec IngressStatus)
    (s : Store IngressSpec IngressStatus) :
    (Store.StatusUpdate obj s).2.persistedSpec = s.persistedSpec := by
  have h := Store.nextFault_objects s
  unfold Store.StatusUpdate
  rcases hf : s.nextFault with ⟨_ | e, s1⟩ <;> rw [hf] at h <;> simp only at h ⊢
  · rcases ho : s1.objects obj.key with _ | cur <;> simp only
    · funext k
      simp [Store.persistedSpec, h]
    · by_cases hrv : cur.ResourceVersion = obj.ResourceVersion
      · rw [if_pos hrv]
        funext k
        by_cases hk : k = obj.key
        · subst hk
          simp [Store.persistedSpec, Store.put, ← h, ho]
        · simp [Store.persistedSpec, Store.put, hk, h]
      · rw [if_neg hrv]
        funext k
        simp [Store.persistedSpec, h]
  · funext k
    simp [Store.persistedSpec, h]

theorem Store.StatusUpdate_ok (obj out : ClusterIngress IngressSpec IngressStatus)
    (s s' : Store IngressSpec IngressStatus)
    (hupd : Store.StatusUpdate obj s = ((out, none), s')) :
    s'.persistedStatus obj.key = some obj.Status := by
  unfold Store.StatusUpdate at hupd
  rcases hf : s.nextFault with ⟨_ | e, s1⟩ <;> rw [hf] at hupd <;> simp only at hupd
  · rcases ho : s1.objects obj.key with _ | cur <;> rw [ho] at hupd <;> simp only at hupd
    · simp at hupd
    · by_cases hrv : cur.ResourceVersion = obj.ResourceVersion
      · rw [if_pos hrv] at hupd
        simp only [Prod.mk.injEq] at hupd
        rw [← hupd.2]
        simp [Store.persistedStatus, Store.put]
      · rw [if_neg hrv] at hupd
        simp at hupd
  · simp at hupd

theorem Store.Get_persistedSpec (key : NamespacedName) (s : Store IngressSpec IngressStatus) :
    (Store.Get key s).2.persistedSpec = s.persistedSpec := by
  funext k
  simp [Store.persistedSpec, Store.Get_objects]

theorem Store.Get_noFault (key : NamespacedName)
    (objects : NamespacedName → Option (Stored IngressSpec IngressStatus)) :
    Store.Get key { objects := objects, faults := [] } =
      ((match objects key with
        | none => Except.error ApiError.NotFound
        | some o => Except.ok (o.toObject key)),
        { objects := objects, faults := [] }) := by
  simp only [Store.Get, Store.nextFault]
  cases objects key <;> rfl

theorem Store.StatusUpdate_noFault (obj : ClusterIngress IngressSpec IngressStatus)
    (objects : NamespacedName → Option (Stored IngressSpec IngressStatus))
    (cur : Stored IngressSpec IngressStatus) (hcur : objects obj.key = some cur)
    (hrv : cur.ResourceVersion = obj.ResourceVersion) :
    (Store.StatusUpdate obj { objects := objects, faults := [] }).2 =
      { objects := fun k => if k = obj.key then
          some { cur with Status := obj.Status, ResourceVersion := cur.ResourceVersion + 1 }
          else objects k,
        faults := [] } := by
  simp [Store.StatusUpdate, Store.nextFault, hcur, hrv, Store.put]

/-- One run over a store without failures and with a translator that is a
function of its argument: either nothing is written and the store is as
before, or exactly one write replaces the Status persisted under the key of
the translator's object. -/
theorem storeReconciler_run_cases [DecidableEq IngressStatus]
    (t : ClusterIngress IngressSpec IngressStatus →
      ClusterIngress IngressSpec IngressStatus × Option ApiError)
    (semantic : IngressStatus → IngressStatus → Bool)
    (objects : NamespacedName → Option (Stored IngressSpec IngressStatus))
    (request : Request) :
    ((Reconcile (traced (storeReconciler (pureTranslator t) semantic)) request
        ({ objects := objects, faults := [] }, [])).2.1 = { objects := objects, faults := [] } ∧
      statusWrites (Reconcile (traced (storeReconciler (pureTranslator t) semantic)) request
        ({ objects := objects, faults := [] }, [])).2.2 = 0) ∨
    (∃ st fst, objects request.NamespacedName = some st ∧
      objects (t (st.toObject request.NamespacedName)).1.key = some fst ∧
      semantic st.Status (t (st.toObject request.NamespacedName)).1.Status = false ∧
      fst.Status ≠ (t (st.toObject request.NamespacedName)).1.Status ∧
      (Reconcile (traced (storeReconciler (pureTranslator t) semantic)) request
        ({ objects := objects, faults := [] }, [])).2.1 =
        { objects := fun k => if k = (t (st.toObject request.NamespacedName)).1.key then
            some { fst with Status := (t (st.toObject request.NamespacedName)).1.Status,
                            ResourceVersion := fst.ResourceVersion + 1 }
            else objects k,
          faults := [] } ∧
      statusWrites (Reconcile (traced (storeReconciler (pureTranslator t) semantic)) request
        ({ objects := objects, faults := [] }, [])).2.2 = 1) := by
  have hG : ∀ key, (storeReconciler (pureTranslator t) semantic).client.Get key
      { objects := objects, faults := [] } = _ := fun key => Store.Get_noFault key objects
  rcases hobj : objects request.NamespacedName with _ | st
  · left
    have hget := hG request.NamespacedName
    rw [hobj] at hget
    rw [Reconcile_traced_fetch_failed _ request _ _ [] _ hget]
    simp [statusWrites, Event.isStatusUpdate]
  · have hget := hG request.NamespacedName
    rw [hobj] at hget
    simp only at hget
    have htr : (storeReconciler (pureTranslator t) semantic).base.ReconcileIngress
        (st.toObject request.NamespacedName).DeepCopy { objects := objects, faults := [] } =
        (((t (st.toObject request.NamespacedName)).1, (t (st.toObject request.NamespacedName)).2),
          { objects := objects, faults := [] }) := rfl
    by_cases heq : semantic st.Status (t (st.toObject request.NamespacedName)).1.Status = true
    · left
      rw [Reconcile_traced_status_unchanged _ request _ _ _ [] _ _ _ hget htr heq]
      simp [statusWrites, Event.isStatusUpdate]
    · have hne : semantic st.Status (t (st.toObject request.NamespacedName)).1.Status = false := by
        simpa using heq
      rw [Reconcile_traced_status_changed _ request _ _ _ [] _ _ _ hget htr hne]
      rcases updateStatus_traced_cases (storeReconciler (pureTranslator t) semantic)
          (t (st.toObject request.NamespacedName)).1 { objects := objects, faults := [] }
          ([] ++ [Event.Get request.NamespacedName (Except.ok (st.toObject request.NamespacedName)),
            Event.ReconcileIngress (st.toObject request.NamespacedName).DeepCopy
              (t (st.toObject request.NamespacedName)).1
              (t (st.toObject request.NamespacedName)).2]) with
        ⟨e', w3, hre, _, hut⟩ | ⟨fresh, w3, hre, _, _, hut⟩ |
        ⟨fresh, w3, out, err, w4, hre, hs, hupd, _, hut⟩
      · left
        rw [hG] at hre
        rw [hut, ← (Prod.mk.inj hre).2]
        simp [statusWrites, Event.isStatusUpdate]
      · left
        rw [hG] at hre
        rw [hut, ← (Prod.mk.inj hre).2]
        simp [statusWrites, Event.isStatusUpdate]
      · right
        rw [hG] at hre
        obtain ⟨hfresh, hw3⟩ := Prod.mk.inj hre
        subst hw3
        rcases hfst : objects (t (st.toObject request.NamespacedName)).1.key with _ | fst
        · rw [hfst] at hfresh
          simp at hfresh
        · rw [hfst] at hfresh
          simp only [Except.ok.injEq] at hfresh
          subst hfresh
          have hw4 := Store.StatusUpdate_noFault
            ({ fst.toObject (t (st.toObject request.NamespacedName)).1.key with
                Status := (t (st.toObject request.NamespacedName)).1.Status } :
              ClusterIngress IngressSpec IngressStatus) objects fst hfst rfl
          have hupd' : Store.StatusUpdate
              ({ fst.toObject (t (st.toObject request.NamespacedName)).1.key with
                  Status := (t (st.toObject request.NamespacedName)).1.Status } :
                ClusterIngress IngressSpec IngressStatus)
              { objects := objects, faults := [] } = ((out, err), w4) := hupd
          rw [hupd'] at hw4
          refine ⟨st, fst, rfl, hfst, hne, hs, ?_, ?_⟩
          · rw [hut]
            exact hw4
          · rw [hut]
            simp [statusWrites, Event.isStatusUpdate]

end StoreFacts

/-! ## The claims -/

section Claims

variable {W E IngressSpec IngressStatus : Type} [DecidableEq IngressStatus]

/-- C3 (invariant I2).  When the Status of the translated copy is semantically
equal to the Status of the object fetched in step 1, `Reconcile` makes exactly
two calls, the step-1 `Get` and the translator: `updateStatus` is not entered,
there is no second `Get` and no `Status().Update`, and the world `Reconcile`
leaves is the one the translator left. -/
theorem Reconcile_zero_writes_when_status_semantically_equal
    (r : ReconcileClusterIngress W E IngressSpec IngressStatus)
    (request : Request) (w w1 w2 : W) (l : List (Event E IngressSpec IngressStatus))
    (original ci : ClusterIngress IngressSpec IngressStatus) (terr : Option E)
    (hget : r.client.Get request.NamespacedName w = (Except.ok original, w1))
    (htr : r.base.ReconcileIngress original.DeepCopy w1 = ((ci, terr), w2))
    (heq : r.SemanticDeepEqual original.Status ci.Status = true) :
    (Reconcile (traced r) request (w, l)).2 =
      (w2, l ++ [Event.Get request.NamespacedName (Except.ok original),
        Event.ReconcileIngress original.DeepCopy ci terr]) ∧
    statusWrites (Reconcile (traced r) request (w, l)).2.2 = statusWrites l ∧
    (Reconcile r request w).2 = w2 := by
  rw [Reconcile_traced_status_unchanged r request w w1 w2 l original ci terr hget htr heq,
    Reconcile_status_unchanged r request w w1 w2 original ci terr hget htr heq]
  refine ⟨rfl, ?_, rfl⟩
  simp [statusWrites_append, statusWrites, Event.isStatusUpdate]

/-- C7.  When the step-1 `Get` fails, `Reconcile` makes no other call (no
translator run, no further store call): it returns `Result{}` with a nil error
when the failure is a not-found and `Result{}` with the read error otherwise,
so it returns an error exactly when the failure is not a not-found. -/
theorem Reconcile_outcome_of_failed_fetch
    (r : ReconcileClusterIngress W E IngressSpec IngressStatus)
    (request : Request) (w w1 : W) (l : List (Event E IngressSpec IngressStatus)) (e : E)
    (hget : r.client.Get request.NamespacedName w = (Except.error e, w1)) :
    (Reconcile (traced r) request (w, l)).2 =
      (w1, l ++ [Event.Get request.NamespacedName (Except.error e)]) ∧
    (r.IsNotFound e = true →
      (Reconcile (traced r) request (w, l)).1 =
        ({ Requeue := false, RequeueAfter := 0 }, none)) ∧
    (r.IsNotFound e = false →
      (Reconcile (traced r) request (w, l)).1 =
        ({ Requeue := false, RequeueAfter := 0 }, some e)) ∧
    ((Reconcile (traced r) request (w, l)).1.2 ≠ none ↔ r.IsNotFound e = false) := by
  rw [Reconcile_traced_fetch_failed r request w w1 l e hget]
  refine ⟨rfl, ?_, ?_, ?_⟩
  · intro h
    simp [h]
  · intro h
    simp [h]
  · by_cases h : r.IsNotFound e = true <;> simp [h]

/-- C9.  When the re-fetch of `updateStatus` succeeds and the fetched Status
deep-equals the desired Status, `updateStatus` returns the fetched object as it
is with a nil error, and the re-fetch is its only call: no `Status().Update`. -/
theorem updateStatus_noop_when_status_deep_equal
    (r : ReconcileClusterIngress W E IngressSpec IngressStatus)
    (desired fresh : ClusterIngress IngressSpec IngressStatus) (w w1 : W)
    (l : List (Event E IngressSpec IngressStatus))
    (hget : r.client.Get desired.key w = (Except.ok fresh, w1))
    (heq : reflectDeepEqual fresh.Status desired.Status = true) :
    updateStatus (traced r) desired (w, l) =
      ((some fresh, none), (w1, l ++ [Event.Get desired.key (Except.ok fresh)])) ∧
    updateStatus r desired w = ((some fresh, none), w1) :=
  ⟨updateStatus_same_status (traced r) desired fresh _ _ (traced_Get r _ w w1 l _ hget) heq,
    updateStatus_same_status r desired fresh w w1 hget heq⟩

/-- C8.  When `Reconcile` enters `updateStatus` and `updateStatus` fails with
`e`, `Reconcile` returns `Result{}` (no requeue) with exactly `e`, and the
failed call is its last call: either the re-fetch failed with `e` (a
not-found included) and no write was issued, or the single `Status().Update`
failed with `e`.  Nothing is retried; the run holds at most one
`Status().Update`. -/
theorem Reconcile_propagates_updateStatus_failure
    (r : ReconcileClusterIngress W E IngressSpec IngressStatus)
    (request : Request) (w w1 w2 : W) (l : List (Event E IngressSpec IngressStatus))
    (original ci : ClusterIngress IngressSpec IngressStatus) (terr : Option E) (e : E)
    (hget : r.client.Get request.NamespacedName w = (Except.ok original, w1))
    (htr : r.base.ReconcileIngress original.DeepCopy w1 = ((ci, terr), w2))
    (hne : r.SemanticDeepEqual original.Status ci.Status = false)
    (hfail : (updateStatus r ci w2).1.2 = some e) :
    (Reconcile (traced r) request (w, l)).1 =
      ({ Requeue := false, RequeueAfter := 0 }, some e) ∧
    (Reconcile r request w).1 = ({ Requeue := false, RequeueAfter := 0 }, some e) ∧
    ((Reconcile (traced r) request (w, l)).2.2 =
        l ++ [Event.Get request.NamespacedName (Except.ok original),
          Event.ReconcileIngress original.DeepCopy ci terr,
          Event.Get ci.key (Except.error e)] ∨
      ∃ fresh out, (Reconcile (traced r) request (w, l)).2.2 =
        l ++ [Event.Get request.NamespacedName (Except.ok original),
          Event.ReconcileIngress original.DeepCopy ci terr,
          Event.Get ci.key (Except.ok fresh),
          Event.StatusUpdate { fresh with Status := ci.Status } out (some e)]) ∧
    statusWrites (Reconcile (traced r) request (w, l)).2.2 ≤ statusWrites l + 1 := by
  rw [Reconcile_traced_status_changed r request w w1 w2 l original ci terr hget htr hne,
    Reconcile_status_changed r request w w1 w2 original ci terr hget htr hne]
  rcases updateStatus_traced_cases r ci w2
      (l ++ [Event.Get request.NamespacedName (Except.ok original),
        Event.ReconcileIngress original.DeepCopy ci terr]) with
    ⟨e', w3, _, hu, hut⟩ | ⟨fresh, w3, _, _, hu, hut⟩ | ⟨fresh, w3, out, err, w4, _, _, _, hu, hut⟩
  · rw [hu] at hfail
    simp only [Option.some.injEq] at hfail
    subst hfail
    rw [hut, hu]
    refine ⟨rfl, rfl, Or.inl (by simp), ?_⟩
    simp [statusWrites_append, statusWrites, Event.isStatusUpdate, Event.isGet]
  · rw [hu] at hfail
    simp at hfail
  · rw [hu] at hfail
    simp only at hfail
    subst hfail
    rw [hut, hu]
    refine ⟨rfl, rfl, Or.inr ⟨fresh, out, by simp⟩, ?_⟩
    simp [statusWrites_append, statusWrites, Event.isStatusUpdate]

/-- C4 (invariant I1).  Every object `Reconcile` submits to `Status().Update`
is the object returned by the re-fetch `Get` of `updateStatus` in the same run
with only its Status replaced by the Status of the translator's object: its
Spec and its metadata (resource version included) are those of the re-fetch.
The successful re-fetch is the call immediately before the write, and the
write is the last call of the run. -/
theorem Reconcile_status_write_is_refetched_object_with_desired_status
    (r : ReconcileClusterIngress W E IngressSpec IngressStatus)
    (request : Request) (w : W)
    (obj out : ClusterIngress IngressSpec IngressStatus) (err : Option E)
    (hmem : Event.StatusUpdate obj out err ∈ (Reconcile (traced r) request (w, [])).2.2) :
    ∃ original desired terr fresh,
      (Reconcile (traced r) request (w, [])).2.2 =
        [Event.Get request.NamespacedName (Except.ok original),
          Event.ReconcileIngress original.DeepCopy desired terr,
          Event.Get desired.key (Except.ok fresh),
          Event.StatusUpdate obj out err] ∧
      obj = { fresh with Status := desired.Status } ∧
      obj.Status = desired.Status ∧ obj.Spec = fresh.Spec ∧
      obj.toObjectMeta = fresh.toObjectMeta := by
  rcases hget : r.client.Get request.NamespacedName w with ⟨e | original, w1⟩
  · rw [Reconcile_traced_fetch_failed r request w w1 [] e hget] at hmem
    simp at hmem
  · rcases htr : r.base.ReconcileIngress original.DeepCopy w1 with ⟨⟨ci, terr⟩, w2⟩
    by_cases heq : r.SemanticDeepEqual original.Status ci.Status = true
    · rw [Reconcile_traced_status_unchanged r request w w1 w2 [] original ci terr hget htr heq]
        at hmem
      simp at hmem
    · have hne : r.SemanticDeepEqual original.Status ci.Status = false := by
        simpa using heq
      rw [Reconcile_traced_status_changed r request w w1 w2 [] original ci terr hget htr hne]
        at hmem ⊢
      rcases updateStatus_traced_cases r ci w2
          ([] ++ [Event.Get request.NamespacedName (Except.ok original),
            Event.ReconcileIngress original.DeepCopy ci terr]) with
        ⟨e', w3, _, _, hut⟩ | ⟨fresh, w3, _, _, _, hut⟩ |
        ⟨fresh, w3, out', err', w4, _, _, _, _, hut⟩
      · rw [hut] at hmem
        simp at hmem
      · rw [hut] at hmem
        simp at hmem
      · rw [hut] at hmem ⊢
        simp at hmem
        obtain ⟨h1, h2, h3⟩ := hmem
        subst h1 h2 h3
        exact ⟨original, ci, terr, fresh, by simp, rfl, rfl, rfl, rfl⟩

/-- C2 (partial-failure visibility).  When the step-1 `Get` succeeds and the
translator returns an error after changing the Status to one that is not
semantically equal to the fetched Status, `Reconcile` still runs `updateStatus`
on the translator's object.  Over a store whose `Get` returns the persisted
object under the key asked for and whose successful `Status().Update` persists
the submitted Status, when `updateStatus` does not fail the persisted Status
after the call is the Status the translator produced. -/
theorem Reconcile_persists_status_of_failed_translator
    (r : ReconcileClusterIngress W E IngressSpec IngressStatus)
    (persisted : W → NamespacedName → Option IngressStatus)
    (hGet : ∀ key w o w', r.client.Get key w = (Except.ok o, w') →
      o.key = key ∧ persisted w' key = some o.Status)
    (hUpd : ∀ obj w out w', r.client.StatusUpdate obj w = ((out, none), w') →
      persisted w' obj.key = some obj.Status)
    (request : Request) (w w1 w2 : W)
    (original ci : ClusterIngress IngressSpec IngressStatus) (e : E)
    (hget : r.client.Get request.NamespacedName w = (Except.ok original, w1))
    (htr : r.base.ReconcileIngress original.DeepCopy w1 = ((ci, some e), w2))
    (hne : r.SemanticDeepEqual original.Status ci.Status = false) :
    (Reconcile r request w).2 = (updateStatus r ci w2).2 ∧
    (Reconcile (traced r) request (w, [])).2 =
      (updateStatus (traced r) ci (w2,
        [Event.Get request.NamespacedName (Except.ok original),
          Event.ReconcileIngress original.DeepCopy ci (some e)])).2 ∧
    ((updateStatus r ci w2).1.2 = none →
      persisted (Reconcile r request w).2 ci.key = some ci.Status) := by
  rw [Reconcile_status_changed r request w w1 w2 original ci (some e) hget htr hne,
    Reconcile_traced_status_changed r request w w1 w2 [] original ci (some e) hget htr hne]
  refine ⟨rfl, rfl, ?_⟩
  intro hok
  rcases updateStatus_traced_cases r ci w2 [] with
    ⟨e', w3, _, hu, _⟩ | ⟨fresh, w3, hre, hs, hu, _⟩ |
    ⟨fresh, w3, out, err, w4, hre, _, hupd, hu, _⟩
  · rw [hu] at hok
    simp at hok
  · rw [hu]
    rw [← hs]
    exact (hGet _ _ _ _ hre).2
  · rw [hu] at hok ⊢
    simp only at hok
    subst hok
    have hk := (hGet _ _ _ _ hre).1
    have := hUpd _ _ _ _ hupd
    have hk' : ({ fresh with Status := ci.Status } :
        ClusterIngress IngressSpec IngressStatus).key = ci.key := hk
    rw [hk'] at this
    exact this

/-- C5, as amended.  When the step-1 `Get` returned Status A, the translator
computed a Status C that is not semantically equal to A, and the re-fetch of
`updateStatus` sees a Status B (written meanwhile by another actor) that does
not deep-equal C, `Reconcile` submits the re-fetched object with only its
Status replaced by C in one `Status().Update` and returns that call's error:
the write is based on the re-fetched object, and when it succeeds the
persisted Status is C, so B is overwritten. -/
theorem Reconcile_overwrites_refetched_status
    (r : ReconcileClusterIngress W E IngressSpec IngressStatus)
    (persisted : W → NamespacedName → Option IngressStatus)
    (hGet : ∀ key w o w', r.client.Get key w = (Except.ok o, w') →
      o.key = key ∧ persisted w' key = some o.Status)
    (hUpd : ∀ obj w out w', r.client.StatusUpdate obj w = ((out, none), w') →
      persisted w' obj.key = some obj.Status)
    (request : Request) (w w1 w2 w3 : W)
    (original ci fresh : ClusterIngress IngressSpec IngressStatus) (terr : Option E)
    (hget : r.client.Get request.NamespacedName w = (Except.ok original, w1))
    (htr : r.base.ReconcileIngress original.DeepCopy w1 = ((ci, terr), w2))
    (hAC : r.SemanticDeepEqual original.Status ci.Status = false)
    (hre : r.client.Get ci.key w2 = (Except.ok fresh, w3))
    (hBC : fresh.Status ≠ ci.Status) :
    persisted w3 ci.key = some fresh.Status ∧
    (Reconcile (traced r) request (w, [])).2.2 =
      [Event.Get request.NamespacedName (Except.ok original),
        Event.ReconcileIngress original.DeepCopy ci terr,
        Event.Get ci.key (Except.ok fresh),
        Event.StatusUpdate { fresh with Status := ci.Status }
          (r.client.StatusUpdate { fresh with Status := ci.Status } w3).1.1
          (r.client.StatusUpdate { fresh with Status := ci.Status } w3).1.2] ∧
    Reconcile r request w =
      (({}, (r.client.StatusUpdate { fresh with Status := ci.Status } w3).1.2),
        (r.client.StatusUpdate { fresh with Status := ci.Status } w3).2) ∧
    ((r.client.StatusUpdate { fresh with Status := ci.Status } w3).1.2 = none →
      persisted (Reconcile r request w).2 ci.key = some ci.Status) := by
  have hne : reflectDeepEqual fresh.Status ci.Status = false := by
    simp [reflectDeepEqual, hBC]
  have hrun : Reconcile r request w =
      (({}, (r.client.StatusUpdate { fresh with Status := ci.Status } w3).1.2),
        (r.client.StatusUpdate { fresh with Status := ci.Status } w3).2) := by
    rw [Reconcile_status_changed r request w w1 w2 original ci terr hget htr hAC,
      updateStatus_write r ci fresh w2 w3 hre hne]
  refine ⟨(hGet _ _ _ _ hre).2, ?_, hrun, ?_⟩
  · rw [Reconcile_traced_status_changed r request w w1 w2 [] original ci terr hget htr hAC,
      updateStatus_write (traced r) ci fresh _ _ (traced_Get r _ w2 w3 _ _ hre) hne,
      traced_StatusUpdate]
    simp
  · intro hok
    rw [hrun]
    have hk := (hGet _ _ _ _ hre).1
    have := hUpd { fresh with Status := ci.Status } w3
      (r.client.StatusUpdate { fresh with Status := ci.Status } w3).1.1
      (r.client.StatusUpdate { fresh with Status := ci.Status } w3).2
      (by rw [← hok])
    have hk' : ({ fresh with Status := ci.Status } :
        ClusterIngress IngressSpec IngressStatus).key = ci.key := hk
    rw [hk'] at this
    exact this

/-- C10 (status isolation).  Over a store whose calls keep the persisted
Specs (a read, and a status-only update) and with a translator whose action on
the world keeps them, whatever it does to its copy, the persisted Specs after
`Reconcile` are the persisted Specs before it, on every path.  And the world
`Reconcile` leaves depends on the translator's copy only through its Status,
name and namespace: a translator that answers with the same Status, name,
namespace and world, and any Spec, other metadata and error, leads to the same
final world. -/
theorem Reconcile_status_isolation
    (r : ReconcileClusterIngress W E IngressSpec IngressStatus)
    (persistedSpec : W → NamespacedName → Option IngressSpec)
    (hGet : ∀ key w, persistedSpec (r.client.Get key w).2 = persistedSpec w)
    (hUpd : ∀ obj w, persistedSpec (r.client.StatusUpdate obj w).2 = persistedSpec w)
    (hTr : ∀ ci w, persistedSpec (r.base.ReconcileIngress ci w).2 = persistedSpec w)
    (request : Request) (w : W) :
    persistedSpec (Reconcile r request w).2 = persistedSpec w ∧
    ∀ base' : BaseIngressReconciler W E IngressSpec IngressStatus,
      (∀ ci w', agreeOnStatusAndKey (base'.ReconcileIngress ci w')
        (r.base.ReconcileIngress ci w')) →
      (Reconcile { r with base := base' } request w).2 = (Reconcile r request w).2 := by
  constructor
  · rcases hget : r.client.Get request.NamespacedName w with ⟨e | original, w1⟩
    · rw [Reconcile_fetch_failed r request w w1 e hget]
      have := hGet request.NamespacedName w
      rw [hget] at this
      exact this
    · have h1 := hGet request.NamespacedName w
      rw [hget] at h1
      rcases htr : r.base.ReconcileIngress original.DeepCopy w1 with ⟨⟨ci, terr⟩, w2⟩
      have h2 := hTr original.DeepCopy w1
      rw [htr] at h2
      simp only at h1 h2
      by_cases heq : r.SemanticDeepEqual original.Status ci.Status = true
      · rw [Reconcile_status_unchanged r request w w1 w2 original ci terr hget htr heq]
        exact h2.trans h1
      · have hne : r.SemanticDeepEqual original.Status ci.Status = false := by
          simpa using heq
        rw [Reconcile_status_changed r request w w1 w2 original ci terr hget htr hne]
        rcases updateStatus_traced_cases r ci w2 [] with
          ⟨e', w3, hre, hu, _⟩ | ⟨fresh, w3, hre, _, hu, _⟩ |
          ⟨fresh, w3, out, err, w4, hre, _, hupd, hu, _⟩
        · rw [hu]
          have h3 := hGet ci.key w2
          rw [hre] at h3
          exact h3.trans (h2.trans h1)
        · rw [hu]
          have h3 := hGet ci.key w2
          rw [hre] at h3
          exact h3.trans (h2.trans h1)
        · rw [hu]
          have h3 := hGet ci.key w2
          rw [hre] at h3
          have h4 := hUpd { fresh with Status := ci.Status } w3
          rw [hupd] at h4
          exact h4.trans (h3.trans (h2.trans h1))
  · intro base' hagree
    rcases hget : r.client.Get request.NamespacedName w with ⟨e | original, w1⟩
    · rw [Reconcile_fetch_failed r request w w1 e hget,
        Reconcile_fetch_failed { r with base := base' } request w w1 e hget]
    · rcases htr : r.base.ReconcileIngress original.DeepCopy w1 with ⟨⟨ci, terr⟩, w2⟩
      rcases htr' : base'.ReconcileIngress original.DeepCopy w1 with ⟨⟨ci', terr'⟩, w2'⟩
      have ha := hagree original.DeepCopy w1
      rw [htr, htr'] at ha
      obtain ⟨hst, hname, hns, hw⟩ := ha
      simp only at hst hname hns hw
      subst hw
      by_cases heq : r.SemanticDeepEqual original.Status ci.Status = true
      · rw [Reconcile_status_unchanged r request w w1 w2' original ci terr hget htr heq,
          Reconcile_status_unchanged { r with base := base' } request w w1 w2' original ci'
            terr' hget htr' (by rw [hst]; exact heq)]
      · have hne : r.SemanticDeepEqual original.Status ci.Status = false := by
          simpa using heq
        rw [Reconcile_status_changed r request w w1 w2' original ci terr hget htr hne,
          Reconcile_status_changed { r with base := base' } request w w1 w2' original ci'
            terr' hget htr' (by rw [hst]; exact hne)]
        simp only [updateStatus, hst, hname, hns]

end Claims

/-- C6, as amended.  Over the store (its `Get` returns the last persisted
object) with no failing call, with a translator that is a function of the
object it is given and whose Status is stable (given an object that already
carries the Status the translator computed for it, at any resource version, it
computes a semantically equal Status), two `Reconcile` runs in succession for
one key issue at most one `Status().Update` in total, and the second run
issues none. -/
theorem Reconcile_twice_at_most_one_write
    {IngressSpec IngressStatus : Type} [DecidableEq IngressStatus]
    (t : ClusterIngress IngressSpec IngressStatus →
      ClusterIngress IngressSpec IngressStatus × Option ApiError)
    (semantic : IngressStatus → IngressStatus → Bool)
    (objects : NamespacedName → Option (Stored IngressSpec IngressStatus))
    (request : Request)
    (hstable : ∀ (o : ClusterIngress IngressSpec IngressStatus) (rv : Nat),
      semantic (t o).1.Status
        (t { o with Status := (t o).1.Status, ResourceVersion := rv }).1.Status = true) :
    statusWrites (Reconcile (traced (storeReconciler (pureTranslator t) semantic)) request
      ((Reconcile (storeReconciler (pureTranslator t) semantic) request
        { objects := objects, faults := [] }).2, [])).2.2 = 0 ∧
    statusWrites (Reconcile (traced (storeReconciler (pureTranslator t) semantic)) request
      ({ objects := objects, faults := [] }, [])).2.2 +
    statusWrites (Reconcile (traced (storeReconciler (pureTranslator t) semantic)) request
      ((Reconcile (storeReconciler (pureTranslator t) semantic) request
        { objects := objects, faults := [] }).2, [])).2.2 ≤ 1 := by
  have hw := (Reconcile_traced_erase (storeReconciler (pureTranslator t) semantic) request
    { objects := objects, faults := [] } []).2
  rw [← hw]
  rcases storeReconciler_run_cases t semantic objects request with
    ⟨hw1, hz⟩ | ⟨st, fst, hst, hfst, hne, hs, hw1, hone⟩
  · rw [hw1, hz]
    exact ⟨rfl, by decide⟩
  · rw [hw1, hone]
    rcases storeReconciler_run_cases t semantic
        (fun k => if k = (t (st.toObject request.NamespacedName)).1.key then
          some { fst with Status := (t (st.toObject request.NamespacedName)).1.Status,
                          ResourceVersion := fst.ResourceVersion + 1 }
          else objects k) request with
      ⟨_, hz2⟩ | ⟨st', fst', hst', hfst', hne', hs', _, _⟩
    · rw [hz2]
      exact ⟨rfl, by decide⟩
    · exfalso
      by_cases hk : request.NamespacedName = (t (st.toObject request.NamespacedName)).1.key
      · rw [if_pos hk] at hst'
        rw [← hk, hst] at hfst
        simp only [Option.some.injEq] at hst' hfst
        subst hfst hst'
        have h := hstable (st.toObject request.NamespacedName) (st.ResourceVersion + 1)
        have h' : semantic (t (st.toObject request.NamespacedName)).1.Status
            (t (Stored.toObject request.NamespacedName
              { st with Status := (t (st.toObject request.NamespacedName)).1.Status,
                        ResourceVersion := st.ResourceVersion + 1 })).1.Status = false := hne'
        have hobj : Stored.toObject request.NamespacedName
            { st with Status := (t (st.toObject request.NamespacedName)).1.Status,
                      ResourceVersion := st.ResourceVersion + 1 } =
            { st.toObject request.NamespacedName with
              Status := (t (st.toObject request.NamespacedName)).1.Status,
              ResourceVersion := st.ResourceVersion + 1 } := rfl
        rw [hobj, h] at h'
        exact Bool.noConfusion h'
      · rw [if_neg hk, hst] at hst'
        simp only [Option.some.injEq] at hst'
        subst hst'
        rw [if_pos rfl] at hfst'
        simp only [Option.some.injEq] at hfst'
        subst hfst'
        exact hs' rfl

/-! ## Concrete runs -/

/-- C1.  The translator's error does not reach the caller.  Over the store
holding `default/foo`: when the translator fails and leaves the Status as it
was, `Reconcile` returns a nil error; when the translator fails after changing
the Status and the status write succeeds, `Reconcile` returns a nil error as
well; and when the status write then fails, `Reconcile` returns the write's
error, not the translator's. -/
theorem Reconcile_returns_nil_after_translator_error :
    (pureTranslator failUnchanged fooObject (fooStore [])).1.2 = some ApiError.Internal ∧
    (Reconcile failUnchangedReconciler fooRequest (fooStore [])).1 =
      ({ Requeue := false, RequeueAfter := 0 }, none) ∧
    (pureTranslator failMarked fooObject (fooStore [])).1.2 = some ApiError.Internal ∧
    (Reconcile failMarkedReconciler fooRequest (fooStore [])).1 =
      ({ Requeue := false, RequeueAfter := 0 }, none) ∧
    (Reconcile failMarkedReconciler fooRequest (fooStore [none, none, some ApiError.Conflict])).1 =
      ({ Requeue := false, RequeueAfter := 0 }, some ApiError.Conflict) := by
  decide

/-- C5, as stated, fails.  The step-1 `Get` returns `default/foo` with Status
`0`; during the translator run another writer persists Status `5`; the
translator computes Status `1` from the object read in step 1.  `Reconcile`
re-fetches, sees `5`, and writes `1` over it: the write succeeds and the
persisted Status after the call is `1`. -/
theorem Reconcile_regresses_newer_status :
    (overwrittenReconciler.client.Get fooRequest.NamespacedName (fooStore [])).1 =
      Except.ok fooObject ∧
    fooObject.Status = 0 ∧
    (overwrittenReconciler.base.ReconcileIngress fooObject.DeepCopy (fooStore [])).1.1.Status
      = 1 ∧
    (overwrittenReconciler.base.ReconcileIngress fooObject.DeepCopy
      (fooStore [])).2.persistedStatus fooKey = some 5 ∧
    (Reconcile overwrittenReconciler fooRequest (fooStore [])).1 =
      ({ Requeue := false, RequeueAfter := 0 }, none) ∧
    (Reconcile overwrittenReconciler fooRequest (fooStore [])).2.persistedStatus fooKey =
      some 1 ∧
    statusWrites (Reconcile (traced overwrittenReconciler) fooRequest (fooStore [], [])).2.2
      = 1 :=
  ⟨rfl, rfl, rfl, rfl, rfl, rfl, rfl⟩

/-- C6, as stated, fails.  The translator `countRuns` is a function of the
object it is given; the store returns the last persisted object and no call
fails.  The first `Reconcile` writes Status `1`, the second, run right after
it, writes Status `2`: two status writes, one of them in the second run. -/
theorem Reconcile_twice_writes_twice :
    statusWrites (Reconcile (traced countingReconciler) fooRequest (fooStore [], [])).2.2 = 1 ∧
    (Reconcile countingReconciler fooRequest (fooStore [])).2.persistedStatus fooKey = some 1 ∧
    statusWrites (Reconcile (traced countingReconciler) fooRequest
      ((Reconcile countingReconciler fooRequest (fooStore [])).2, [])).2.2 = 1 ∧
    (Reconcile countingReconciler fooRequest
      (Reconcile countingReconciler fooRequest (fooStore [])).2).2.persistedStatus fooKey
      = some 2 ∧
    ¬ (statusWrites (Reconcile (traced countingReconciler) fooRequest (fooStore [], [])).2.2 +
      statusWrites (Reconcile (traced countingReconciler) fooRequest
        ((Reconcile countingReconciler fooRequest (fooStore [])).2, [])).2.2 ≤ 1) := by
  decide

/-- C3 on a run: the translator fails and leaves `default/foo` as it was; the run is the `Get` and the translator call, and the store is as before. -/
theorem Reconcile_zero_writes_when_status_semantically_equal_witness :
    (Reconcile (traced failUnchangedReconciler) fooRequest (fooStore [], [])).2 =
      (fooStore [], [] ++ [Event.Get fooRequest.NamespacedName (Except.ok fooObject),
        Event.ReconcileIngress fooObject.DeepCopy fooObject (some ApiError.Internal)]) ∧
    statusWrites (Reconcile (traced failUnchangedReconciler) fooRequest (fooStore [], [])).2.2
      = statusWrites ([] : List (Event ApiError Nat Nat)) ∧
    (Reconcile failUnchangedReconciler fooRequest (fooStore [])).2 = fooStore [] :=
  Reconcile_zero_writes_when_status_semantically_equal failUnchangedReconciler fooRequest
    (fooStore []) (fooStore []) (fooStore []) [] fooObject fooObject (some ApiError.Internal)
    rfl rfl rfl

/-- C7 on a run: the store holds nothing, the step-1 `Get` answers not-found, and that `Get` is the only call. -/
theorem Reconcile_outcome_of_failed_fetch_witness :
    (Reconcile (traced readyReconciler) fooRequest (emptyStore, [])).2 =
      (emptyStore, [] ++ [Event.Get fooRequest.NamespacedName
        (Except.error ApiError.NotFound)]) ∧
    (readyReconciler.IsNotFound ApiError.NotFound = true →
      (Reconcile (traced readyReconciler) fooRequest (emptyStore, [])).1 =
        ({ Requeue := false, RequeueAfter := 0 }, none)) ∧
    (readyReconciler.IsNotFound ApiError.NotFound = false →
      (Reconcile (traced readyReconciler) fooRequest (emptyStore, [])).1 =
        ({ Requeue := false, RequeueAfter := 0 }, some ApiError.NotFound)) ∧
    ((Reconcile (traced readyReconciler) fooRequest (emptyStore, [])).1.2 ≠ none ↔
      readyReconciler.IsNotFound ApiError.NotFound = false) :=
  Reconcile_outcome_of_failed_fetch readyReconciler fooRequest emptyStore emptyStore []
    ApiError.NotFound rfl

/-- C9 on a run: the desired object carries the persisted Status, so `updateStatus` answers with the fetched object after its `Get`. -/
theorem updateStatus_noop_when_status_deep_equal_witness :
    updateStatus (traced readyReconciler) fooObject (fooStore [], []) =
      ((some fooObject, none),
        (fooStore [], [] ++ [Event.Get fooObject.key (Except.ok fooObject)])) ∧
    updateStatus readyReconciler fooObject (fooStore []) =
      ((some fooObject, none), fooStore []) :=
  updateStatus_noop_when_status_deep_equal readyReconciler fooObject fooObject
    (fooStore []) (fooStore []) [] rfl rfl

/-- C8 on a run: the third store call, the `Status().Update`, fails with a conflict, which `Reconcile` returns. -/
theorem Reconcile_propagates_updateStatus_failure_witness :
    (Reconcile readyReconciler fooRequest (fooStore [none, none, some ApiError.Conflict])).1 =
      ({ Requeue := false, RequeueAfter := 0 }, some ApiError.Conflict) ∧
    statusWrites (Reconcile (traced readyReconciler) fooRequest
      (fooStore [none, none, some ApiError.Conflict], [])).2.2 ≤
        statusWrites ([] : List (Event ApiError Nat Nat)) + 1 :=
  ⟨(Reconcile_propagates_updateStatus_failure readyReconciler fooRequest
      (fooStore [none, none, some ApiError.Conflict]) (fooStore [none, some ApiError.Conflict])
      (fooStore [none, some ApiError.Conflict]) [] fooObject { fooObject with Status := 1 }
      none ApiError.Conflict rfl rfl rfl (by decide)).2.1,
    (Reconcile_propagates_updateStatus_failure readyReconciler fooRequest
      (fooStore [none, none, some ApiError.Conflict]) (fooStore [none, some ApiError.Conflict])
      (fooStore [none, some ApiError.Conflict]) [] fooObject { fooObject with Status := 1 }
      none ApiError.Conflict rfl rfl rfl (by decide)).2.2.2⟩

/-- C4 on a run: `markReady` over `default/foo`; the object written is the re-fetched one with Status `1`. -/
theorem Reconcile_status_write_is_refetched_object_with_desired_status_witness :
    ∃ original desired terr fresh,
      (Reconcile (traced readyReconciler) fooRequest (fooStore [], [])).2.2 =
        [Event.Get fooRequest.NamespacedName (Except.ok original),
          Event.ReconcileIngress original.DeepCopy desired terr,
          Event.Get desired.key (Except.ok fresh),
          Event.StatusUpdate { fooObject with Status := 1 }
            { fooObject with Status := 1, ResourceVersion := 2 } none] ∧
      ({ fooObject with Status := 1 } : ClusterIngress Nat Nat) =
        { fresh with Status := desired.Status } ∧
      ({ fooObject with Status := 1 } : ClusterIngress Nat Nat).Status = desired.Status ∧
      ({ fooObject with Status := 1 } : ClusterIngress Nat Nat).Spec = fresh.Spec ∧
      ({ fooObject with Status := 1 } : ClusterIngress Nat Nat).toObjectMeta =
        fresh.toObjectMeta :=
  Reconcile_status_write_is_refetched_object_with_desired_status readyReconciler fooRequest
    (fooStore []) { fooObject with Status := 1 }
    { fooObject with Status := 1, ResourceVersion := 2 } none
    (List.Mem.tail _ (List.Mem.tail _ (List.Mem.tail _ (List.Mem.head _))))

/-- C2 on a run: `failMarked` fails after setting Status `2`, and Status `2` is persisted. -/
theorem Reconcile_persists_status_of_failed_translator_witness :
    (failMarkedReconciler.base.ReconcileIngress fooObject.DeepCopy (fooStore [])).1.2 =
      some ApiError.Internal ∧
    (Reconcile failMarkedReconciler fooRequest (fooStore [])).2.persistedStatus fooKey =
      some 2 :=
  ⟨rfl, (Reconcile_persists_status_of_failed_translator failMarkedReconciler
    Store.persistedStatus (fun key w o w' h => Store.Get_ok key w w' o h)
    (fun obj w out w' h => Store.StatusUpdate_ok obj out w w' h)
    fooRequest (fooStore []) (fooStore []) (fooStore []) fooObject
    { fooObject with Status := 2, Spec := 99 } ApiError.Internal rfl rfl rfl).2.2 rfl⟩

/-- C5 (amended) on a run: the re-fetch sees the Status `5` written meanwhile, and Status `1` is persisted over it. -/
theorem Reconcile_overwrites_refetched_status_witness :
    ((fooStore []).put fooKey
      { fooStored with Status := 5, ResourceVersion := 2 }).persistedStatus fooKey = some 5 ∧
    (Reconcile overwrittenReconciler fooRequest (fooStore [])).2.persistedStatus fooKey =
      some 1 :=
  ⟨(Reconcile_overwrites_refetched_status overwrittenReconciler
      Store.persistedStatus (fun key w o w' h => Store.Get_ok key w w' o h)
      (fun obj w out w' h => Store.StatusUpdate_ok obj out w w' h)
      fooRequest (fooStore []) (fooStore [])
      ((fooStore []).put fooKey { fooStored with Status := 5, ResourceVersion := 2 })
      ((fooStore []).put fooKey { fooStored with Status := 5, ResourceVersion := 2 })
      fooObject { fooObject with Status := 1 }
      (Stored.toObject fooKey { fooStored with Status := 5, ResourceVersion := 2 }) none
      rfl rfl rfl rfl (by decide)).1,
    (Reconcile_overwrites_refetched_status overwrittenReconciler
      Store.persistedStatus (fun key w o w' h => Store.Get_ok key w w' o h)
      (fun obj w out w' h => Store.StatusUpdate_ok obj out w w' h)
      fooRequest (fooStore []) (fooStore [])
      ((fooStore []).put fooKey { fooStored with Status := 5, ResourceVersion := 2 })
      ((fooStore []).put fooKey { fooStored with Status := 5, ResourceVersion := 2 })
      fooObject { fooObject with Status := 1 }
      (Stored.toObject fooKey { fooStored with Status := 5, ResourceVersion := 2 }) none
      rfl rfl rfl rfl (by decide)).2.2.2 rfl⟩

/-- C6 (amended) on a run: `markReady` always computes Status `1`; the second run writes nothing. -/
theorem Reconcile_twice_at_most_one_write_witness :
    statusWrites (Reconcile (traced readyReconciler) fooRequest
      ((Reconcile readyReconciler fooRequest (fooStore [])).2, [])).2.2 = 0 ∧
    statusWrites (Reconcile (traced readyReconciler) fooRequest (fooStore [], [])).2.2 +
    statusWrites (Reconcile (traced readyReconciler) fooRequest
      ((Reconcile readyReconciler fooRequest (fooStore [])).2, [])).2.2 ≤ 1 :=
  Reconcile_twice_at_most_one_write markReady sameStatus (fooStore []).objects fooRequest
    (fun _ _ => rfl)

/-- C10 on a run: `failMarked` sets the Spec of its copy to `99`; the persisted Specs are unchanged, and the final store is the one reached with `markFailed`, which leaves the Spec of its copy alone. -/
theorem Reconcile_status_isolation_witness :
    (Store.persistedSpec (Reconcile failMarkedReconciler fooRequest (fooStore [])).2 =
      Store.persistedSpec (fooStore [])) ∧
    (Reconcile { failMarkedReconciler with
        base := { ReconcileIngress := pureTranslator markFailed } } fooRequest (fooStore [])).2 =
      (Reconcile failMarkedReconciler fooRequest (fooStore [])).2 :=
  ⟨(Reconcile_status_isolation failMarkedReconciler Store.persistedSpec
      (fun key w => Store.Get_persistedSpec key w)
      (fun obj w => Store.StatusUpdate_persistedSpec obj w)
      (fun _ _ => rfl) fooRequest (fooStore [])).1,
    (Reconcile_status_isolation failMarkedReconciler Store.persistedSpec
      (fun key w => Store.Get_persistedSpec key w)
      (fun obj w => Store.StatusUpdate_persistedSpec obj w)
      (fun _ _ => rfl) fooRequest (fooStore [])).2
      { ReconcileIngress := pureTranslator markFailed }
      (fun _ _ => ⟨rfl, rfl, rfl, rfl⟩)⟩

end ClusterIngressController
